import Mathlib

/-!
Verification of the spotify-background repository: a shallow embedding of
the reconciliation loop (watcher.ts), the image-generator's background
cache and text overlay sizing (image-generator.ts), and the Spotify
metadata post-processing (spotify.ts), together with theorems settling
the frozen claims about the natural-language specification.

JavaScript `number` arithmetic is modelled with exact rationals (ℚ) and
integers; JS strings are modelled as Lean strings / lists of characters;
`Buffer` contents are opaque and modelled as `Nat`; fallible external
calls (artwork download, image generation, file write, desktop-setter)
are modelled by oracles supplying each call's outcome.
-/

namespace SpotifyBackground

/-- `SpotifyTrack` from config.ts: `{artist: string; track: string; artworkUrl: string}`. -/
structure SpotifyTrack where
  artist : String
  track : String
  artworkUrl : String
deriving DecidableEq, Repr

/-- spotify.ts `getTrackId`: ``return `${track.artist}::${track.track}::${track.artworkUrl}` ``. -/
def getTrackId (track : SpotifyTrack) : String :=
  track.artist ++ "::" ++ track.track ++ "::" ++ track.artworkUrl

/-! ## Background cache (image-generator.ts)

`backgroundCache` is a JS `Map<string, Buffer>`; a `Map` iterates its keys
in insertion order, `get` does not reorder, and `set` of an absent key
appends.  We model it as an association list in insertion order with
opaque `Nat` buffer values. -/

/-- JS `Map.get` on the insertion-ordered association list. -/
def mapGet (k : String) : List (String × Nat) → Option Nat
  | [] => none
  | (k0, v) :: rest => if k = k0 then some v else mapGet k rest

/-- JS `Map.delete k`: remove the entry with key `k` (a `Map` holds each
key at most once). -/
def mapDelete (k : String) : List (String × Nat) → List (String × Nat)
  | [] => []
  | (k0, v) :: rest => if k0 = k then rest else (k0, v) :: mapDelete k rest

/-- One call of the cache-maintenance block of `generateNowPlayingImage`
(image-generator.ts lines 119-130): look the url up; on a miss, create the
background (value supplied by `bg`), `set` it (a `Map.set` of an absent
key appends in insertion order), then if the size exceeds 5 delete
`backgroundCache.keys().next().value` — the first-inserted key — but only
when that key is truthy (in JS the empty string is falsy, so the
`if (firstKey)` guard also skips eviction when the oldest key is `""`). -/
def backgroundCacheStep (cache : List (String × Nat)) (artworkUrl : String) (bg : Nat) :
    List (String × Nat) :=
  match mapGet artworkUrl cache with
  | some _ => cache
  | none =>
    let c := cache ++ [(artworkUrl, bg)]
    if 5 < c.length then
      match c.head? with
      | some (firstKey, _) =>
          if firstKey = "" then c else mapDelete firstKey c
      | none => c
    else c

/-- A sequence of `generateNowPlayingImage` calls acting on the cache:
each element is the call's artwork url together with the buffer the
blurred-background pipeline would produce on a miss. -/
def backgroundCacheRun (calls : List (String × Nat)) : List (String × Nat) :=
  calls.foldl (fun c call => backgroundCacheStep c call.1 call.2) []

/-- image-generator.ts `clearBackgroundCache`: `backgroundCache.clear()`. -/
def clearBackgroundCache (_cache : List (String × Nat)) : List (String × Nat) := []

/-! ## Text overlay sizing (image-generator.ts `createTextOverlay`)

Only the numeric layer of `createTextOverlay` matters for the claims: the
font sizes, per-string shrink factors and vertical offsets interpolated
into the SVG.  JS `Math.round` on the nonnegative values that occur here
is `⌊x + 1/2⌋`. -/

/-- JS `Math.round` (round half up), as used on the nonnegative quantities
of `createTextOverlay`. -/
def jround (x : ℚ) : ℤ := ⌊x + 1/2⌋

/-- config.ts `TRACK_FONT_SIZE`. -/
def TRACK_FONT_SIZE : ℚ := 32

/-- config.ts `ARTIST_FONT_SIZE`. -/
def ARTIST_FONT_SIZE : ℚ := 20

/-- The numeric outputs of `createTextOverlay` that are interpolated into
its SVG string. -/
structure TextOverlay where
  trackSize : ℤ
  artistSize : ℤ
  trackScaleFactor : ℚ
  artistScaleFactor : ℚ
  trackOffsetY : ℤ
  artistOffsetY : ℤ
deriving DecidableEq, Repr

/-- image-generator.ts `createTextOverlay` (lines 48-102), numeric part.
`width`, `textX` are the pixel arguments computed by
`generateNowPlayingImage`; `sizeFactor = height / BASE_HEIGHT`. -/
def createTextOverlay (track artist : String) (width textX : ℤ) (sizeFactor : ℚ) :
    TextOverlay :=
  let rightMargin : ℤ := jround (80 * sizeFactor)
  let maxTextWidth : ℤ := width - textX - rightMargin
  let charWidthRatio : ℚ := 55/100
  let minScaleFactor : ℚ := 1/2
  let baseTrackSize : ℤ := jround (TRACK_FONT_SIZE * sizeFactor)
  let baseArtistSize : ℤ := jround (ARTIST_FONT_SIZE * sizeFactor)
  let estimatedTrackWidth : ℚ := (track.length : ℚ) * (baseTrackSize : ℚ) * charWidthRatio
  let trackScaleFactor : ℚ :=
    if (maxTextWidth : ℚ) < estimatedTrackWidth then
      max ((maxTextWidth : ℚ) / estimatedTrackWidth) minScaleFactor
    else 1
  let trackSize : ℤ := jround ((baseTrackSize : ℚ) * trackScaleFactor)
  let estimatedArtistWidth : ℚ := (artist.length : ℚ) * (baseArtistSize : ℚ) * charWidthRatio
  let artistScaleFactor : ℚ :=
    if (maxTextWidth : ℚ) < estimatedArtistWidth then
      max ((maxTextWidth : ℚ) / estimatedArtistWidth) minScaleFactor
    else 1
  let artistSize : ℤ := jround ((baseArtistSize : ℚ) * artistScaleFactor)
  let trackOffsetY : ℤ := jround (8 * sizeFactor * trackScaleFactor)
  let artistOffsetY : ℤ := jround (22 * sizeFactor * artistScaleFactor)
  ⟨trackSize, artistSize, trackScaleFactor, artistScaleFactor, trackOffsetY, artistOffsetY⟩

/-! ## Featuring-annotation extraction (spotify.ts `getSpotifyInfo`)

The three JS regexes are embedded through a small backtracking matcher
whose items are exactly the constructs those regexes use: single-char
classes, greedy `*` / `+` over a char class, an ordered case-insensitive
literal alternation (the keyword alternation, with each optional `\.?`
expanded in JS preference order "with dot first"), a capturing greedy `+`
over a char class, and the `$` anchor.  `matchSeq` returns all ways a
pattern consumes a prefix, in JS backtracking preference order; a regex
match is the head of that list at the leftmost start position. -/

/-- JS `\s` character class (also the set removed by `String.trim`). -/
def jsSpace (c : Char) : Bool :=
  let n := c.toNat
  n = 0x20 || (0x09 ≤ n && n ≤ 0x0D) || n = 0xA0 || n = 0x1680 ||
  (0x2000 ≤ n && n ≤ 0x200A) || n = 0x2028 || n = 0x2029 || n = 0x202F ||
  n = 0x205F || n = 0x3000 || n = 0xFEFF

/-- JS `.` (without the `s` flag): any char but a line terminator. -/
def jsDot (c : Char) : Bool :=
  let n := c.toNat
  !(n = 0x0A || n = 0x0D || n = 0x2028 || n = 0x2029)

/-- ASCII lower-casing, the canonicalisation relevant for `/i` on the
ASCII keyword literals of the featuring patterns. -/
def asciiLower (c : Char) : Char :=
  if 'A' ≤ c && c ≤ 'Z' then Char.ofNat (c.toNat + 32) else c

/-- Regex items occurring in the three featuring patterns. -/
inductive RItem where
  | cls (p : Char → Bool)
  | star (p : Char → Bool)
  | plus (p : Char → Bool)
  | litAlt (alts : List (List Char))
  | capPlus (p : Char → Bool)
  | eos
deriving Inhabited

/-- Length of the maximal run of characters satisfying `p`. -/
def countLead (p : Char → Bool) : List Char → Nat
  | [] => 0
  | c :: cs => if p c then countLead p cs + 1 else 0

/-- Case-insensitive (ASCII) prefix test of a pattern literal. -/
def ciPrefix : List Char → List Char → Bool
  | [], _ => true
  | _ :: _, [] => false
  | p :: ps, c :: cs => asciiLower c = asciiLower p && ciPrefix ps cs

/-- All ways a pattern consumes a prefix of `s`, in JS backtracking
preference order; each result is the remaining suffix together with the
capture, if a capturing group participated. -/
def matchSeq : List RItem → List Char → List (List Char × Option (List Char))
  | [], s => [(s, none)]
  | .cls p :: items, s =>
    match s with
    | [] => []
    | c :: cs => if p c then matchSeq items cs else []
  | .star p :: items, s =>
    ((List.range (countLead p s + 1)).reverse).flatMap fun k => matchSeq items (s.drop k)
  | .plus p :: items, s =>
    (((List.range (countLead p s + 1)).reverse).filter (fun k => 1 ≤ k)).flatMap
      fun k => matchSeq items (s.drop k)
  | .litAlt alts :: items, s =>
    alts.flatMap fun a => if ciPrefix a s then matchSeq items (s.drop a.length) else []
  | .capPlus p :: items, s =>
    (((List.range (countLead p s + 1)).reverse).filter (fun k => 1 ≤ k)).flatMap
      fun k => (matchSeq items (s.drop k)).map fun r => (r.1, some (s.take k))
  | .eos :: items, s => if s.isEmpty then matchSeq items s else []

/-- The preferred match of a pattern anchored at the start of `s`. -/
def matchHere (items : List RItem) (s : List Char) : Option (List Char × Option (List Char)) :=
  (matchSeq items s).head?

/-- JS `String.prototype.match` without `/g`: the match at the leftmost
position where the pattern matches, returned as (matched text, capture). -/
def findMatch (items : List RItem) : List Char → Option (List Char × List Char)
  | [] =>
    match matchHere items [] with
    | some (_, cap) => some ([], cap.getD [])
    | none => none
  | s@(_ :: tail) =>
    match matchHere items s with
    | some (rest, cap) => some (s.take (s.length - rest.length), cap.getD [])
    | none => findMatch items tail

/-- JS `String.prototype.replace` with a string pattern: replace the first
occurrence of `target` by the empty string. -/
def replaceFirst : List Char → List Char → List Char
  | s, target =>
    if target.isPrefixOf s then s.drop target.length
    else
      match s with
      | [] => []
      | c :: cs => c :: replaceFirst cs target

/-- JS `String.prototype.trim`. -/
def jsTrim (s : List Char) : List Char :=
  ((s.dropWhile (fun c => jsSpace c)).reverse.dropWhile (fun c => jsSpace c)).reverse

/-- The keyword alternation `(?:feat\.?|ft\.?|featuring|with|w\/|con|avec|mit|c\/)`
of patterns 1 and 2, with each greedy `\.?` expanded in preference order. -/
def featKeywords : List (List Char) :=
  [String.toList "feat.", String.toList "feat", String.toList "ft.", String.toList "ft",
   String.toList "featuring", String.toList "with", String.toList "w/",
   String.toList "con", String.toList "avec", String.toList "mit", String.toList "c/"]

/-- The keyword alternation `(?:feat\.?|ft\.?|featuring)` of pattern 3. -/
def featKeywords3 : List (List Char) :=
  [String.toList "feat.", String.toList "feat", String.toList "ft.", String.toList "ft",
   String.toList "featuring"]

/-- `[\(\[]`. -/
def openBracket (c : Char) : Bool := c = '(' || c = '['

/-- `[\)\]]`. -/
def closeBracket (c : Char) : Bool := c = ')' || c = ']'

/-- `[^)\]]`. -/
def notCloseBracket (c : Char) : Bool := !(c = ')' || c = ']')

/-- `[-–—]`. -/
def dashChar (c : Char) : Bool := c = '-' || c = '–' || c = '—'

/-- spotify.ts pattern 1: `/\s*[\(\[]\s*(?:kw)\s+([^)\]]+)[\)\]]/i`. -/
def featPattern1 : List RItem :=
  [.star jsSpace, .cls openBracket, .star jsSpace, .litAlt featKeywords,
   .plus jsSpace, .capPlus notCloseBracket, .cls closeBracket]

/-- spotify.ts pattern 2: `/\s*[-–—]\s*(?:kw)\s+(.+)$/i`. -/
def featPattern2 : List RItem :=
  [.star jsSpace, .cls dashChar, .star jsSpace, .litAlt featKeywords,
   .plus jsSpace, .capPlus jsDot, .eos]

/-- spotify.ts pattern 3: `/\s+(?:feat\.?|ft\.?|featuring)\s+(.+)$/i`. -/
def featPattern3 : List RItem :=
  [.plus jsSpace, .litAlt featKeywords3, .plus jsSpace, .capPlus jsDot, .eos]

/-- The `featPatterns` array, in source order. -/
def featPatterns : List (List RItem) := [featPattern1, featPattern2, featPattern3]

/-- The `for (const pattern of featPatterns)` loop of `getSpotifyInfo`:
on the first pattern that matches, strip the matched text from the title
(first occurrence, then trim) and append the trimmed capture to the
artist joined by `", "`, then break. -/
def applyFeatLoop (artist track : String) : List (List RItem) → String × String
  | [] => (artist, track)
  | pat :: rest =>
    match findMatch pat track.toList with
    | some (m0, cap) =>
        (artist ++ ", " ++ String.mk (jsTrim cap),
         String.mk (jsTrim (replaceFirst track.toList m0)))
    | none => applyFeatLoop artist track rest

/-- Featuring extraction of `getSpotifyInfo`, as a function of the raw
artist and title fields. Returns (artist, track) after the loop. -/
def extractFeaturing (artist track : String) : String × String :=
  applyFeatLoop artist track featPatterns

/-- `result.split("|||")` specialised to the `"|||"` separator. -/
def splitTripleBar : List Char → List (List Char)
  | [] => [[]]
  | '|' :: '|' :: '|' :: rest => [] :: splitTripleBar rest
  | c :: rest =>
    match splitTripleBar rest with
    | [] => [[c]]
    | h :: t => (c :: h) :: t

/-- The pure tail of spotify.ts `getSpotifyInfo` applied to the string the
AppleScript call returned: `"null"` (Spotify not running) and `"paused"`
(running but not playing) both yield `null`; otherwise split on `"|||"`,
destructure the first three parts and run the featuring extraction.  (A
result with fewer than three parts is outside the AppleScript contract —
the script always returns either a sentinel or three `|||`-joined
fields — and is modelled as `none`.) -/
def parseSpotifyResult (result : String) : Option SpotifyTrack :=
  if result = "null" || result = "paused" then none
  else
    match splitTripleBar result.toList with
    | artistRaw :: trackRaw :: artworkUrl :: _ =>
      let p := extractFeaturing (String.mk artistRaw) (String.mk trackRaw)
      some ⟨p.1, p.2, String.mk artworkUrl⟩
    | _ => none

/-! ## Reconciliation loop (watcher.ts), atomic-cycle model

`WatcherState` mirrors watcher.ts's `state` record (the timer handle is
not part of the claims and is omitted).  External side effects are
recorded in order in a `List Effect`; the outcomes of the fallible
external calls of one update cycle are supplied by a `CycleOracle`
(including the freshly generated `now_playing_${Date.now()}.png` output
path).  The disk is the set of output files currently existing, as a
duplicate-free list. -/

/-- watcher.ts `WatcherState` (without `pollIntervalId`). -/
@[ext]
structure WatcherState where
  lastTrackId : Option String
  lastArtworkUrl : Option String
  cachedArtwork : Option Nat
  outputPath : Option String
  isUpdating : Bool
  originalBackground : Option String
  isShuttingDown : Bool
deriving DecidableEq, Repr

/-- The initial `state` literal of watcher.ts. -/
def initialState : WatcherState :=
  ⟨none, none, none, none, false, none, false⟩

/-- Externally visible side effects of the loop, in call order. -/
inductive Effect where
  | download (url : String)
  | generateImage (artworkUrl : String)
  | writeFile (path : String)
  | setDesktop (path : String)
  | unlink (path : String)
deriving DecidableEq, Repr

/-- Decidable equality of `Except` outcomes (used to state and decide
properties of the oracles below). -/
instance {ε α : Type} [DecidableEq ε] [DecidableEq α] : DecidableEq (Except ε α)
  | Except.ok x, Except.ok y => decidable_of_iff (x = y) (by simp)
  | Except.ok _, Except.error _ => isFalse (by simp)
  | Except.error _, Except.ok _ => isFalse (by simp)
  | Except.error x, Except.error y => decidable_of_iff (x = y) (by simp)

/-- Outcomes of the fallible external calls of one update cycle, plus the
timestamp-named output path the cycle would use. -/
structure CycleOracle where
  downloadResult : Except Unit Nat
  generateResult : Except Unit Nat
  writeResult : Except Unit Unit
  setResult : Except Unit Unit
  newPath : String
  /-- Whether a failed `writeFile` left a partial file at `newPath`
  (`fs.writeFile` gives no atomicity guarantee on failure). Read only
  when `writeResult` is an error. -/
  writePartial : Bool
  /-- Outcome of the cycle's post-setter `unlink(previous).catch(() => {})`:
  the failure is swallowed by the source, so it only determines whether
  the previous file actually disappears from disk. -/
  unlinkResult : Except Unit Unit
deriving DecidableEq, Repr

/-- Reconciler state together with the on-disk output files. -/
structure World where
  st : WatcherState
  disk : List String
deriving DecidableEq, Repr

/-- `writeFile` creating (or overwriting) a file. -/
def diskWrite (disk : List String) (p : String) : List String :=
  if p ∈ disk then disk else disk ++ [p]

/-- `unlink(p).catch(() => {})`: best-effort removal.  The source
swallows the failure, so the call's only observable consequence is
whether the file disappears: on success it is removed, on a (swallowed)
failure it stays on disk. -/
def diskUnlink (disk : List String) (p : String) (result : Except Unit Unit) :
    List String :=
  match result with
  | Except.ok _ => disk.erase p
  | Except.error _ => disk

/-- A successful delete removes the file. -/
lemma diskUnlink_ok (disk : List String) (p : String) :
    diskUnlink disk p (Except.ok ()) = disk.erase p := rfl

/-- A swallowed delete failure leaves the disk unchanged. -/
lemma diskUnlink_error (disk : List String) (p : String) (e : Unit) :
    diskUnlink disk p (Except.error e) = disk := rfl

/-- watcher.ts `updateBackground` (lines 79-115 of the watcher), with the
whole cycle run atomically.  Returns the new world, the effect trace, and
the outcome (`Except.error` when the body threw; the `finally` block
resets `isUpdating` on every exit of the body).  A failed `writeFile`
may leave a partial file at the new path (`writePartial`), and the
post-setter delete of the previous file may itself fail, its error
swallowed by `.catch(() => {})` (`unlinkResult`). -/
def updateBackground (track : SpotifyTrack) (o : CycleOracle) (w : World) :
    World × List Effect × Except Unit Unit :=
  if w.st.isUpdating then (w, [], Except.ok ()) else
  let s0 := { w.st with isUpdating := true }
  let fin := fun (s : WatcherState) => { s with isUpdating := false }
  -- use cached artwork (url unchanged and cache non-null) or download new
  let step1 : WatcherState × List Effect × Except Unit Nat :=
    if s0.lastArtworkUrl = some track.artworkUrl ∧ s0.cachedArtwork.isSome then
      (s0, [], Except.ok (s0.cachedArtwork.getD 0))
    else
      match o.downloadResult with
      | Except.error e => (s0, [Effect.download track.artworkUrl], Except.error e)
      | Except.ok bytes =>
        ({ s0 with cachedArtwork := some bytes, lastArtworkUrl := some track.artworkUrl },
         [Effect.download track.artworkUrl], Except.ok bytes)
  match step1 with
  | (s1, eff1, Except.error e) => ({ w with st := fin s1 }, eff1, Except.error e)
  | (s1, eff1, Except.ok _artwork) =>
    -- generate the image
    let eff2 := eff1 ++ [Effect.generateImage track.artworkUrl]
    match o.generateResult with
    | Except.error e => ({ w with st := fin s1 }, eff2, Except.error e)
    | Except.ok _image =>
      -- write the new output file
      let eff3 := eff2 ++ [Effect.writeFile o.newPath]
      match o.writeResult with
      | Except.error e =>
        ({ st := fin s1,
           disk := if o.writePartial then diskWrite w.disk o.newPath else w.disk },
         eff3, Except.error e)
      | Except.ok _ =>
        let disk3 := diskWrite w.disk o.newPath
        -- set as background
        let eff4 := eff3 ++ [Effect.setDesktop o.newPath]
        match o.setResult with
        | Except.error e => ({ st := fin s1, disk := disk3 }, eff4, Except.error e)
        | Except.ok _ =>
          -- delete the previous output file if present and different
          match s1.outputPath with
          | some old =>
            if old ≠ o.newPath then
              ({ st := fin { s1 with outputPath := some o.newPath },
                 disk := diskUnlink disk3 old o.unlinkResult },
               eff4 ++ [Effect.unlink old], Except.ok ())
            else
              ({ st := fin { s1 with outputPath := some o.newPath }, disk := disk3 },
               eff4, Except.ok ())
          | none =>
            ({ st := fin { s1 with outputPath := some o.newPath }, disk := disk3 },
             eff4, Except.ok ())

/-- Inputs of one `poll` call: the sample the AppleScript collaborator
produced (`Except.error` when the scripting call threw) and the oracle
for the update cycle the poll may run. -/
structure PollOracle where
  sample : Except Unit (Option SpotifyTrack)
  cycle : CycleOracle
deriving DecidableEq, Repr

/-- watcher.ts `poll` (lines 120-168 of the watcher), atomically.  Errors
of the sample call and of `updateBackground` are caught and only logged;
the restore call's failure is likewise caught, so the restore effect is
recorded but its outcome does not influence the state.  The source
re-checks `isShuttingDown` after awaiting the sample; in this atomic
model the flag cannot change mid-poll, so the entry check subsumes the
re-check. -/
def poll (o : PollOracle) (w : World) : World × List Effect :=
  if w.st.isShuttingDown then (w, []) else
  match o.sample with
  | Except.error _ => (w, [])
  | Except.ok none =>
    -- Spotify not playing - restore original background
    if w.st.lastTrackId ≠ none then
      let s1 := { w.st with lastTrackId := none }
      match w.st.originalBackground with
      | some bg => ({ w with st := s1 }, [Effect.setDesktop bg])
      | none => ({ w with st := s1 }, [])
    else (w, [])
  | Except.ok (some track) =>
    let trackId := getTrackId track
    if some trackId ≠ w.st.lastTrackId then
      -- optimistic update of lastTrackId, then the update cycle
      let w1 : World := { w with st := { w.st with lastTrackId := some trackId } }
      let r := updateBackground track o.cycle w1
      (r.1, r.2.1)
    else (w, [])

/-! ## Interleaved (micro-step) model

The atomic model above runs a whole update cycle inside one poll.  The
timer callback is async, so in the source a *new tick can fire while a
cycle is suspended at one of its `await`s*.  The micro-step model makes
that explicit: an in-flight cycle is a program counter into
`updateBackground`'s suspension points, a `tick` event runs `poll`'s
synchronous part up to and including `updateBackground`'s entry guard,
and a `step` event advances the in-flight cycle by one suspension point.
A `cleanup` event is the shutdown sequence (`requestShutdown` +
`cleanup`), which does not abort an in-flight cycle. -/

/-- Suspension points of `updateBackground`: the next await to perform. -/
inductive CyclePC where
  | fetch | generate | write | setBg | install
deriving DecidableEq, Repr

/-- An in-flight update cycle. -/
structure InFlight where
  track : SpotifyTrack
  oracle : CycleOracle
  pc : CyclePC
deriving DecidableEq, Repr

/-- Interleaved system state. -/
structure Sys where
  st : WatcherState
  disk : List String
  inFlight : Option InFlight
deriving DecidableEq, Repr

/-- State after `startWatcher` captured the original background. -/
def startSys (bg : String) : Sys :=
  ⟨{ initialState with originalBackground := some bg }, [], none⟩

/-- A `tick`: `poll` run up to `updateBackground`'s entry.  When the
track key changed, `lastTrackId` is optimistically advanced; then the
`if (state.isUpdating) return` guard either drops the cycle (nothing is
queued) or starts it (sets `isUpdating` and creates the in-flight cycle,
whose awaits are performed by subsequent `step` events). -/
def tickSys (sample : Except Unit (Option SpotifyTrack)) (o : CycleOracle) (s : Sys) :
    Sys × List Effect :=
  if s.st.isShuttingDown then (s, []) else
  match sample with
  | Except.error _ => (s, [])
  | Except.ok none =>
    if s.st.lastTrackId ≠ none then
      let st1 := { s.st with lastTrackId := none }
      match s.st.originalBackground with
      | some bg => ({ s with st := st1 }, [Effect.setDesktop bg])
      | none => ({ s with st := st1 }, [])
    else (s, [])
  | Except.ok (some track) =>
    let trackId := getTrackId track
    if some trackId ≠ s.st.lastTrackId then
      let st1 := { s.st with lastTrackId := some trackId }
      if st1.isUpdating then ({ s with st := st1 }, [])
      else
        ({ s with
           st := { st1 with isUpdating := true },
           inFlight := some ⟨track, o, CyclePC.fetch⟩ }, [])
    else (s, [])

/-- One suspension-point step of the in-flight cycle (no-op when none is
in flight).  Error outcomes end the cycle through the `finally` block
(resetting `isUpdating`), exactly as in `updateBackground`. -/
def stepSys (s : Sys) : Sys × List Effect :=
  match s.inFlight with
  | none => (s, [])
  | some c =>
    match c.pc with
    | CyclePC.fetch =>
      if s.st.lastArtworkUrl = some c.track.artworkUrl ∧ s.st.cachedArtwork.isSome then
        ({ s with inFlight := some { c with pc := CyclePC.generate } }, [])
      else
        match c.oracle.downloadResult with
        | Except.error _ =>
          ({ s with st := { s.st with isUpdating := false }, inFlight := none },
           [Effect.download c.track.artworkUrl])
        | Except.ok bytes =>
          ({ s with
             st := { s.st with
                     cachedArtwork := some bytes,
                     lastArtworkUrl := some c.track.artworkUrl },
             inFlight := some { c with pc := CyclePC.generate } },
           [Effect.download c.track.artworkUrl])
    | CyclePC.generate =>
      match c.oracle.generateResult with
      | Except.error _ =>
        ({ s with st := { s.st with isUpdating := false }, inFlight := none },
         [Effect.generateImage c.track.artworkUrl])
      | Except.ok _ =>
        ({ s with inFlight := some { c with pc := CyclePC.write } },
         [Effect.generateImage c.track.artworkUrl])
    | CyclePC.write =>
      match c.oracle.writeResult with
      | Except.error _ =>
        ({ st := { s.st with isUpdating := false },
           disk := if c.oracle.writePartial then diskWrite s.disk c.oracle.newPath
                   else s.disk,
           inFlight := none },
         [Effect.writeFile c.oracle.newPath])
      | Except.ok _ =>
        ({ s with
           disk := diskWrite s.disk c.oracle.newPath,
           inFlight := some { c with pc := CyclePC.setBg } },
         [Effect.writeFile c.oracle.newPath])
    | CyclePC.setBg =>
      match c.oracle.setResult with
      | Except.error _ =>
        ({ s with st := { s.st with isUpdating := false }, inFlight := none },
         [Effect.setDesktop c.oracle.newPath])
      | Except.ok _ =>
        ({ s with inFlight := some { c with pc := CyclePC.install } },
         [Effect.setDesktop c.oracle.newPath])
    | CyclePC.install =>
      match s.st.outputPath with
      | some old =>
        if old ≠ c.oracle.newPath then
          ({ st := { s.st with outputPath := some c.oracle.newPath, isUpdating := false },
             disk := diskUnlink s.disk old c.oracle.unlinkResult, inFlight := none },
           [Effect.unlink old])
        else
          ({ s with
             st := { s.st with outputPath := some c.oracle.newPath, isUpdating := false },
             inFlight := none }, [])
      | none =>
        ({ s with
           st := { s.st with outputPath := some c.oracle.newPath, isUpdating := false },
           inFlight := none }, [])

/-- watcher.ts `requestShutdown` + `cleanup`: mark shutting down, restore
the original background (best effort), delete the current output file
(best effort — `ur` is the outcome of that delete, whose failure the
source swallows).  The in-flight cycle, if any, is not aborted. -/
def cleanupSys (ur : Except Unit Unit) (s : Sys) : Sys × List Effect :=
  let st1 := { s.st with isShuttingDown := true }
  let effRestore : List Effect :=
    match st1.originalBackground with
    | some bg => [Effect.setDesktop bg]
    | none => []
  match st1.outputPath with
  | some p =>
    ({ s with st := st1, disk := diskUnlink s.disk p ur },
     effRestore ++ [Effect.unlink p])
  | none => ({ s with st := st1 }, effRestore)

/-- Events of the interleaved model. -/
inductive Ev where
  | tick (sample : Except Unit (Option SpotifyTrack)) (o : CycleOracle)
  | step
  | cleanup (ur : Except Unit Unit)
deriving Repr

/-- One event. -/
def evStep (s : Sys) : Ev → Sys × List Effect
  | Ev.tick sample o => tickSys sample o s
  | Ev.step => stepSys s
  | Ev.cleanup ur => cleanupSys ur s

/-- Folding a sequence of events (states only). -/
def runSys (evs : List Ev) (s : Sys) : Sys :=
  evs.foldl (fun a e => (evStep a e).1) s

/-! ## Cache lemmas (claim C2) -/

/-- On a cache hit the cache is unchanged. -/
lemma backgroundCacheStep_hit (cache : List (String × Nat)) (url : String) (bg v : Nat)
    (hget : mapGet url cache = some v) :
    backgroundCacheStep cache url bg = cache := by
  unfold backgroundCacheStep
  rw [hget]

/-- On a miss that does not exceed the capacity, the new entry is appended. -/
lemma backgroundCacheStep_small (cache : List (String × Nat)) (url : String) (bg : Nat)
    (hget : mapGet url cache = none) (h5 : cache.length + 1 ≤ 5) :
    backgroundCacheStep cache url bg = cache ++ [(url, bg)] := by
  unfold backgroundCacheStep
  rw [hget]
  have : ¬5 < (cache ++ [(url, bg)]).length := by
    simp only [List.length_append, List.length_cons, List.length_nil]
    omega
  simp only [if_neg this]

/-- On a miss that exceeds the capacity with a nonempty (truthy) oldest
key, the oldest entry is evicted. -/
lemma backgroundCacheStep_evict (k0 : String) (v0 : Nat) (rest : List (String × Nat))
    (url : String) (bg : Nat) (hget : mapGet url ((k0, v0) :: rest) = none)
    (h5 : 5 < rest.length + 2) (hk0 : k0 ≠ "") :
    backgroundCacheStep ((k0, v0) :: rest) url bg = rest ++ [(url, bg)] := by
  unfold backgroundCacheStep
  rw [hget]
  have hlen : 5 < ((k0, v0) :: rest ++ [(url, bg)]).length := by
    simp only [List.cons_append, List.length_cons, List.length_append, List.length_nil]
    omega
  simp [hk0, mapDelete]
  omega

/-- On a miss that exceeds the capacity with the empty string as oldest
key, the `if (firstKey)` guard is falsy and nothing is evicted. -/
lemma backgroundCacheStep_skip (v0 : Nat) (rest : List (String × Nat))
    (url : String) (bg : Nat) (hget : mapGet url (("", v0) :: rest) = none)
    (h5 : 5 < rest.length + 2) :
    backgroundCacheStep (("", v0) :: rest) url bg = ("", v0) :: rest ++ [(url, bg)] := by
  unfold backgroundCacheStep
  rw [hget]
  have hlen : 5 < (("", v0) :: rest ++ [(url, bg)]).length := by
    simp only [List.cons_append, List.length_cons, List.length_append, List.length_nil]
    omega
  simp [hlen]

/-- One `generateNowPlayingImage` call keeps the cache at ≤ 5 entries
with all keys nonempty, provided it starts that way and the inserted
identity is nonempty. -/
lemma backgroundCacheStep_inv (cache : List (String × Nat)) (url : String) (bg : Nat)
    (hlen : cache.length ≤ 5) (hk : ∀ e ∈ cache, e.1 ≠ "") (hurl : url ≠ "") :
    (backgroundCacheStep cache url bg).length ≤ 5 ∧
      ∀ e ∈ backgroundCacheStep cache url bg, e.1 ≠ "" := by
  cases hget : mapGet url cache with
  | some v => rw [backgroundCacheStep_hit cache url bg v hget]; exact ⟨hlen, hk⟩
  | none =>
    have hmemApp : ∀ tail : List (String × Nat), (∀ e ∈ tail, e.1 ≠ "") →
        ∀ e ∈ tail ++ [(url, bg)], e.1 ≠ "" := by
      intro tail htail e he
      rcases List.mem_append.mp he with h | h
      · exact htail e h
      · simp only [List.mem_singleton] at h
        simp [h, hurl]
    by_cases hsmall : cache.length + 1 ≤ 5
    · rw [backgroundCacheStep_small cache url bg hget hsmall]
      constructor
      · simp only [List.length_append, List.length_cons, List.length_nil]
        omega
      · exact hmemApp cache hk
    · -- cache is full (length 5), so it is nonempty with a nonempty head key
      cases cache with
      | nil => simp at hsmall
      | cons e0 rest =>
        obtain ⟨k0, v0⟩ := e0
        have hk0 : k0 ≠ "" := hk (k0, v0) (List.mem_cons_self _ _)
        have h5 : 5 < rest.length + 2 := by
          simp only [List.length_cons] at hsmall
          omega
        rw [backgroundCacheStep_evict k0 v0 rest url bg hget h5 hk0]
        constructor
        · simp only [List.length_append, List.length_cons, List.length_nil]
          simp only [List.length_cons] at hlen
          omega
        · exact hmemApp rest (fun e he => hk e (List.mem_cons_of_mem _ he))

/-- Folding cache steps preserves the ≤ 5 bound when all inserted
identities are nonempty. -/
lemma backgroundCacheRun_aux (calls : List (String × Nat)) :
    ∀ cache, cache.length ≤ 5 → (∀ e ∈ cache, e.1 ≠ "") →
      (∀ call ∈ calls, call.1 ≠ "") →
      ((calls.foldl (fun c call => backgroundCacheStep c call.1 call.2) cache).length ≤ 5 ∧
        ∀ e ∈ calls.foldl (fun c call => backgroundCacheStep c call.1 call.2) cache,
          e.1 ≠ "") := by
  induction calls with
  | nil => intro cache h1 h2 _; exact ⟨h1, h2⟩
  | cons call rest ih =>
    intro cache h1 h2 hcalls
    simp only [List.foldl_cons]
    have hstep := backgroundCacheStep_inv cache call.1 call.2 h1 h2
      (hcalls call (List.mem_cons_self _ _))
    exact ih _ hstep.1 hstep.2 (fun c hc => hcalls c (List.mem_cons_of_mem _ hc))

/-- The FIFO scenario: five distinct nonempty identities, a re-request of
the second, then a sixth identity; the first-inserted entry is evicted
even though the second was used more recently. -/
lemma backgroundCacheRun_fifo (u1 u2 u3 u4 u5 u6 : String)
    (b1 b2 b3 b4 b5 b6 r : Nat)
    (h1 : u1 ≠ "")
    (h21 : u2 ≠ u1) (h31 : u3 ≠ u1) (h32 : u3 ≠ u2)
    (h41 : u4 ≠ u1) (h42 : u4 ≠ u2) (h43 : u4 ≠ u3)
    (h51 : u5 ≠ u1) (h52 : u5 ≠ u2) (h53 : u5 ≠ u3) (h54 : u5 ≠ u4)
    (h61 : u6 ≠ u1) (h62 : u6 ≠ u2) (h63 : u6 ≠ u3) (h64 : u6 ≠ u4) (h65 : u6 ≠ u5) :
    backgroundCacheRun
        [(u1, b1), (u2, b2), (u3, b3), (u4, b4), (u5, b5), (u2, r), (u6, b6)]
      = [(u2, b2), (u3, b3), (u4, b4), (u5, b5), (u6, b6)] := by
  have s1 : backgroundCacheStep [] u1 b1 = [(u1, b1)] :=
    backgroundCacheStep_small [] u1 b1 rfl (by simp)
  have g2 : mapGet u2 [(u1, b1)] = none := by simp [mapGet, h21]
  have s2 : backgroundCacheStep [(u1, b1)] u2 b2 = [(u1, b1), (u2, b2)] := by
    rw [backgroundCacheStep_small _ u2 b2 g2 (by simp)]
    rfl
  have g3 : mapGet u3 [(u1, b1), (u2, b2)] = none := by simp [mapGet, h31, h32]
  have s3 : backgroundCacheStep [(u1, b1), (u2, b2)] u3 b3
      = [(u1, b1), (u2, b2), (u3, b3)] := by
    rw [backgroundCacheStep_small _ u3 b3 g3 (by simp)]
    rfl
  have g4 : mapGet u4 [(u1, b1), (u2, b2), (u3, b3)] = none := by
    simp [mapGet, h41, h42, h43]
  have s4 : backgroundCacheStep [(u1, b1), (u2, b2), (u3, b3)] u4 b4
      = [(u1, b1), (u2, b2), (u3, b3), (u4, b4)] := by
    rw [backgroundCacheStep_small _ u4 b4 g4 (by simp)]
    rfl
  have g5 : mapGet u5 [(u1, b1), (u2, b2), (u3, b3), (u4, b4)] = none := by
    simp [mapGet, h51, h52, h53, h54]
  have s5 : backgroundCacheStep [(u1, b1), (u2, b2), (u3, b3), (u4, b4)] u5 b5
      = [(u1, b1), (u2, b2), (u3, b3), (u4, b4), (u5, b5)] := by
    rw [backgroundCacheStep_small _ u5 b5 g5 (by simp)]
    rfl
  have g6 : mapGet u2 [(u1, b1), (u2, b2), (u3, b3), (u4, b4), (u5, b5)] = some b2 := by
    simp [mapGet, h21]
  have s6 : backgroundCacheStep [(u1, b1), (u2, b2), (u3, b3), (u4, b4), (u5, b5)] u2 r
      = [(u1, b1), (u2, b2), (u3, b3), (u4, b4), (u5, b5)] :=
    backgroundCacheStep_hit _ u2 r b2 g6
  have g7 : mapGet u6 [(u1, b1), (u2, b2), (u3, b3), (u4, b4), (u5, b5)] = none := by
    simp [mapGet, h61, h62, h63, h64, h65]
  have s7 : backgroundCacheStep [(u1, b1), (u2, b2), (u3, b3), (u4, b4), (u5, b5)] u6 b6
      = [(u2, b2), (u3, b3), (u4, b4), (u5, b5), (u6, b6)] := by
    rw [backgroundCacheStep_evict u1 b1 _ u6 b6 g7 (by simp) h1]
    rfl
  unfold backgroundCacheRun
  simp only [List.foldl_cons, List.foldl_nil]
  rw [s1, s2, s3, s4, s5, s6, s7]

/-- C2: the claim is false as stated. The six artwork identities
`"", "a", "b", "c", "d", "e"` are pairwise distinct, yet after these six
insertions the cache holds 6 entries and the first-inserted key `""` is
still present: because the JS guard `if (firstKey)` treats the empty
string as falsy, eviction is skipped when the oldest key is `""`. -/
theorem C2_counterexample :
    (backgroundCacheRun [("", 0), ("a", 1), ("b", 2), ("c", 3), ("d", 4), ("e", 5)]).length
        = 6 ∧
      mapGet ""
          (backgroundCacheRun [("", 0), ("a", 1), ("b", 2), ("c", 3), ("d", 4), ("e", 5)])
        = some 0 := by
  constructor <;> decide

/-- C2 (amended): provided no inserted artwork identity is the empty
string, after every call to `generateNowPlayingImage` the background
cache holds at most 5 entries, and eviction is FIFO by insertion order,
not LRU: for every sequence of 6 insertions of distinct nonempty artwork
identities, exactly 5 remain and the first-inserted key is absent, even
when the 2nd-inserted key was looked up again before the 6th insertion. -/
theorem C2_cache_fifo_bound :
    (∀ calls : List (String × Nat), (∀ call ∈ calls, call.1 ≠ "") →
        (backgroundCacheRun calls).length ≤ 5) ∧
      (∀ u1 u2 u3 u4 u5 u6 : String, ∀ b1 b2 b3 b4 b5 b6 r : Nat,
        u1 ≠ "" →
        u2 ≠ u1 → u3 ≠ u1 → u3 ≠ u2 → u4 ≠ u1 → u4 ≠ u2 → u4 ≠ u3 →
        u5 ≠ u1 → u5 ≠ u2 → u5 ≠ u3 → u5 ≠ u4 →
        u6 ≠ u1 → u6 ≠ u2 → u6 ≠ u3 → u6 ≠ u4 → u6 ≠ u5 →
        (backgroundCacheRun
              [(u1, b1), (u2, b2), (u3, b3), (u4, b4), (u5, b5), (u2, r), (u6, b6)]).map
            Prod.fst = [u2, u3, u4, u5, u6] ∧
          mapGet u1 (backgroundCacheRun
              [(u1, b1), (u2, b2), (u3, b3), (u4, b4), (u5, b5), (u2, r), (u6, b6)])
            = none) := by
  constructor
  · intro calls hcalls
    exact (backgroundCacheRun_aux calls [] (by simp) (by simp) hcalls).1
  · intro u1 u2 u3 u4 u5 u6 b1 b2 b3 b4 b5 b6 r h1 h21 h31 h32 h41 h42 h43 h51 h52
      h53 h54 h61 h62 h63 h64 h65
    have hrun := backgroundCacheRun_fifo u1 u2 u3 u4 u5 u6 b1 b2 b3 b4 b5 b6 r h1
      h21 h31 h32 h41 h42 h43 h51 h52 h53 h54 h61 h62 h63 h64 h65
    rw [hrun]
    constructor
    · simp
    · simp [mapGet, Ne.symm h21, Ne.symm h31, Ne.symm h41, Ne.symm h51, Ne.symm h61]

/-- Witness for the amended C2 theorem at concrete distinct identities. -/
theorem C2_cache_fifo_bound_witness :
    (backgroundCacheRun
          [("u1", 1), ("u2", 2), ("u3", 3), ("u4", 4), ("u5", 5), ("u2", 9), ("u6", 6)]).map
        Prod.fst = ["u2", "u3", "u4", "u5", "u6"] ∧
      mapGet "u1" (backgroundCacheRun
          [("u1", 1), ("u2", 2), ("u3", 3), ("u4", 4), ("u5", 5), ("u2", 9), ("u6", 6)])
        = none :=
  C2_cache_fifo_bound.2 "u1" "u2" "u3" "u4" "u5" "u6" 1 2 3 4 5 6 9
    (by decide) (by decide) (by decide) (by decide) (by decide) (by decide) (by decide)
    (by decide) (by decide) (by decide) (by decide) (by decide) (by decide) (by decide)
    (by decide) (by decide)

/-! ## Text overlay lemmas (claim C3) -/

/-- `maxTextWidth` of `createTextOverlay`: screen width minus text start X
minus the scaled right margin. -/
def overlayMaxTextWidth (width textX : ℤ) (sizeFactor : ℚ) : ℤ :=
  width - textX - jround (80 * sizeFactor)

/-- `baseTrackSize` of `createTextOverlay`. -/
def overlayBaseTrackSize (sizeFactor : ℚ) : ℤ := jround (TRACK_FONT_SIZE * sizeFactor)

/-- `baseArtistSize` of `createTextOverlay`. -/
def overlayBaseArtistSize (sizeFactor : ℚ) : ℤ := jround (ARTIST_FONT_SIZE * sizeFactor)

/-- The width estimate of `createTextOverlay`: character count × font
size × 0.55. -/
def estimatedWidth (len : ℕ) (base : ℤ) : ℚ := (len : ℚ) * (base : ℚ) * (55/100)

/-- C3: each string's font size shrinks independently.  A string whose
estimated width exceeds the available width is scaled by exactly
available/estimated clamped below at 1/2, a fitting string keeps scale 1
(first four conjuncts); the track quantities do not depend on the artist
string and vice versa (next two conjuncts); and a title whose estimated
width is exactly twice the (positive) available width gets scale factor
exactly 1/2, i.e. 50 % of its nominal size, regardless of the artist
line (last conjunct). -/
theorem C3_text_shrink_independent :
    ∀ track artist : String, ∀ width textX : ℤ, ∀ sizeFactor : ℚ,
      ((createTextOverlay track artist width textX sizeFactor).trackScaleFactor
          = if ((overlayMaxTextWidth width textX sizeFactor : ℤ) : ℚ)
                < estimatedWidth track.length (overlayBaseTrackSize sizeFactor) then
              max (((overlayMaxTextWidth width textX sizeFactor : ℤ) : ℚ)
                  / estimatedWidth track.length (overlayBaseTrackSize sizeFactor)) (1/2)
            else 1) ∧
      ((createTextOverlay track artist width textX sizeFactor).trackSize
          = jround (((overlayBaseTrackSize sizeFactor : ℤ) : ℚ)
              * (createTextOverlay track artist width textX sizeFactor).trackScaleFactor)) ∧
      ((createTextOverlay track artist width textX sizeFactor).artistScaleFactor
          = if ((overlayMaxTextWidth width textX sizeFactor : ℤ) : ℚ)
                < estimatedWidth artist.length (overlayBaseArtistSize sizeFactor) then
              max (((overlayMaxTextWidth width textX sizeFactor : ℤ) : ℚ)
                  / estimatedWidth artist.length (overlayBaseArtistSize sizeFactor)) (1/2)
            else 1) ∧
      ((createTextOverlay track artist width textX sizeFactor).artistSize
          = jround (((overlayBaseArtistSize sizeFactor : ℤ) : ℚ)
              * (createTextOverlay track artist width textX sizeFactor).artistScaleFactor)) ∧
      (∀ artist2 : String,
        (createTextOverlay track artist2 width textX sizeFactor).trackScaleFactor
            = (createTextOverlay track artist width textX sizeFactor).trackScaleFactor ∧
          (createTextOverlay track artist2 width textX sizeFactor).trackSize
            = (createTextOverlay track artist width textX sizeFactor).trackSize) ∧
      (∀ track2 : String,
        (createTextOverlay track2 artist width textX sizeFactor).artistScaleFactor
            = (createTextOverlay track artist width textX sizeFactor).artistScaleFactor ∧
          (createTextOverlay track2 artist width textX sizeFactor).artistSize
            = (createTextOverlay track artist width textX sizeFactor).artistSize) ∧
      (estimatedWidth track.length (overlayBaseTrackSize sizeFactor)
            = 2 * ((overlayMaxTextWidth width textX sizeFactor : ℤ) : ℚ) →
        0 < ((overlayMaxTextWidth width textX sizeFactor : ℤ) : ℚ) →
        (createTextOverlay track artist width textX sizeFactor).trackScaleFactor = 1/2 ∧
          (createTextOverlay track artist width textX sizeFactor).trackSize
            = jround (((overlayBaseTrackSize sizeFactor : ℤ) : ℚ) * (1/2))) := by
  intro track artist width textX sizeFactor
  refine ⟨rfl, rfl, rfl, rfl, fun artist2 => ⟨rfl, rfl⟩, fun track2 => ⟨rfl, rfl⟩, ?_⟩
  intro h2 hpos
  have hval : (createTextOverlay track artist width textX sizeFactor).trackScaleFactor
      = if ((overlayMaxTextWidth width textX sizeFactor : ℤ) : ℚ)
            < estimatedWidth track.length (overlayBaseTrackSize sizeFactor) then
          max (((overlayMaxTextWidth width textX sizeFactor : ℤ) : ℚ)
              / estimatedWidth track.length (overlayBaseTrackSize sizeFactor)) (1/2)
        else 1 := rfl
  have hlt : ((overlayMaxTextWidth width textX sizeFactor : ℤ) : ℚ)
      < estimatedWidth track.length (overlayBaseTrackSize sizeFactor) := by
    rw [h2]; linarith
  have hne : ((overlayMaxTextWidth width textX sizeFactor : ℤ) : ℚ) ≠ 0 := ne_of_gt hpos
  have hhalf : ((overlayMaxTextWidth width textX sizeFactor : ℤ) : ℚ)
      / estimatedWidth track.length (overlayBaseTrackSize sizeFactor) = 1/2 := by
    rw [h2]
    field_simp
    ring
  have hscale : (createTextOverlay track artist width textX sizeFactor).trackScaleFactor
      = 1/2 := by
    rw [hval, if_pos hlt, hhalf, max_self]
  refine ⟨hscale, ?_⟩
  have hsz : (createTextOverlay track artist width textX sizeFactor).trackSize
      = jround (((overlayBaseTrackSize sizeFactor : ℤ) : ℚ)
          * (createTextOverlay track artist width textX sizeFactor).trackScaleFactor) := rfl
  rw [hsz, hscale]

/-- Witness: a ten-character title at base font size 32 (size factor 1)
has estimated width 176 = 2 × the available width 88 (screen width 168,
text start 0, right margin 80), and is scaled to exactly 1/2; the
resulting font size is round(32 × 1/2) = 16. -/
theorem C3_text_shrink_independent_witness :
    (createTextOverlay "1234567890" "a" 168 0 1).trackScaleFactor = 1/2 ∧
      (createTextOverlay "1234567890" "a" 168 0 1).trackSize = 16 := by
  have h := (C3_text_shrink_independent "1234567890" "a" 168 0 1).2.2.2.2.2.2
    (by norm_num [estimatedWidth, overlayBaseTrackSize, overlayMaxTextWidth, jround,
      TRACK_FONT_SIZE, show ("1234567890" : String).length = 10 from rfl])
    (by norm_num [overlayMaxTextWidth, jround])
  exact ⟨h.1, by rw [h.2]; norm_num [overlayBaseTrackSize, jround, TRACK_FONT_SIZE]⟩

/-! ## Featuring extraction (claim C4) -/

/-- C4: the poller applies exactly the first matching pattern in the
fixed priority order parenthesized/bracketed (`featPattern1`), then
dash-delimited (`featPattern2`), then trailing bare (`featPattern3`),
stripping the matched annotation from the title (then trimming) and
appending the trimmed capture to the artist joined by `", "`; a title
matched by no pattern is unchanged.  Concretely, `"Song (feat. Artist B)"`
with artist `"Artist A"` yields `("Artist A, Artist B", "Song")`,
`"Track - feat. X"` yields title `"Track"`, and a title with no featuring
marker is returned unchanged. -/
theorem C4_featuring_first_pattern :
    (∀ artist track : String,
      (∀ m0 cap, findMatch featPattern1 track.toList = some (m0, cap) →
        extractFeaturing artist track
          = (artist ++ ", " ++ String.mk (jsTrim cap),
             String.mk (jsTrim (replaceFirst track.toList m0)))) ∧
      (findMatch featPattern1 track.toList = none →
        ∀ m0 cap, findMatch featPattern2 track.toList = some (m0, cap) →
        extractFeaturing artist track
          = (artist ++ ", " ++ String.mk (jsTrim cap),
             String.mk (jsTrim (replaceFirst track.toList m0)))) ∧
      (findMatch featPattern1 track.toList = none →
        findMatch featPattern2 track.toList = none →
        ∀ m0 cap, findMatch featPattern3 track.toList = some (m0, cap) →
        extractFeaturing artist track
          = (artist ++ ", " ++ String.mk (jsTrim cap),
             String.mk (jsTrim (replaceFirst track.toList m0)))) ∧
      (findMatch featPattern1 track.toList = none →
        findMatch featPattern2 track.toList = none →
        findMatch featPattern3 track.toList = none →
        extractFeaturing artist track = (artist, track))) ∧
    extractFeaturing "Artist A" "Song (feat. Artist B)" = ("Artist A, Artist B", "Song") ∧
    (extractFeaturing "A" "Track - feat. X").2 = "Track" ∧
    extractFeaturing "Z" "Plain Song" = ("Z", "Plain Song") := by
  refine ⟨fun artist track => ⟨?_, ?_, ?_, ?_⟩, by decide, by decide, by decide⟩
  · intro m0 cap h1
    simp only [String.toList] at h1
    simp [extractFeaturing, featPatterns, applyFeatLoop, h1]
  · intro h1 m0 cap h2
    simp only [String.toList] at h1 h2
    simp [extractFeaturing, featPatterns, applyFeatLoop, h1, h2]
  · intro h1 h2 m0 cap h3
    simp only [String.toList] at h1 h2 h3
    simp [extractFeaturing, featPatterns, applyFeatLoop, h1, h2, h3]
  · intro h1 h2 h3
    simp only [String.toList] at h1 h2 h3
    simp [extractFeaturing, featPatterns, applyFeatLoop, h1, h2, h3]

/-- Witness: the first pattern matches `"Song (feat. Artist B)"` with
matched text `" (feat. Artist B)"` and capture `"Artist B"`, and the
theorem's first clause yields exactly the claimed output. -/
theorem C4_featuring_first_pattern_witness :
    extractFeaturing "Artist A" "Song (feat. Artist B)"
      = ("Artist A, Artist B", "Song") :=
  ((C4_featuring_first_pattern.1 "Artist A" "Song (feat. Artist B)").1
      " (feat. Artist B)".toList "Artist B".toList (by decide)).trans (by decide)

/-! ## Reconciliation-loop lemmas (claims C1, C5, C8, C9, C10) -/

/-- `updateBackground` never changes `lastTrackId`, `originalBackground`
or `isShuttingDown`. -/
lemma updateBackground_preserves (track : SpotifyTrack) (o : CycleOracle) (w : World) :
    (updateBackground track o w).1.st.lastTrackId = w.st.lastTrackId ∧
      (updateBackground track o w).1.st.originalBackground = w.st.originalBackground ∧
      (updateBackground track o w).1.st.isShuttingDown = w.st.isShuttingDown := by
  obtain ⟨dl, gen, wr, sr, np, wp, ur⟩ := o
  by_cases hupd : w.st.isUpdating = true
  · simp [updateBackground, hupd]
  · by_cases hhit : w.st.lastArtworkUrl = some track.artworkUrl ∧
      w.st.cachedArtwork.isSome = true
    all_goals cases dl
    all_goals cases gen
    all_goals cases wr
    all_goals cases sr
    all_goals cases hout : w.st.outputPath
    all_goals simp [updateBackground, hupd, hhit, hout, apply_ite]

/-- The `finally` block: an invocation entered with the mutual-exclusion
flag clear leaves it clear on every exit path. -/
lemma updateBackground_resets_flag (track : SpotifyTrack) (o : CycleOracle) (w : World)
    (h : w.st.isUpdating = false) :
    (updateBackground track o w).1.st.isUpdating = false := by
  obtain ⟨dl, gen, wr, sr, np, wp, ur⟩ := o
  by_cases hhit : w.st.lastArtworkUrl = some track.artworkUrl ∧
    w.st.cachedArtwork.isSome = true
  all_goals cases dl
  all_goals cases gen
  all_goals cases wr
  all_goals cases sr
  all_goals cases hout : w.st.outputPath
  all_goals simp [updateBackground, h, hhit, hout, apply_ite]

/-- A poll whose sample carries the currently recorded track key is a
complete no-op. -/
lemma poll_same_key (o : PollOracle) (w : World) (t : SpotifyTrack)
    (hs : o.sample = Except.ok (some t))
    (hk : some (getTrackId t) = w.st.lastTrackId) :
    poll o w = (w, []) := by
  unfold poll
  by_cases hshut : w.st.isShuttingDown
  · simp [hshut]
  · simp only [Bool.not_eq_true] at hshut
    simp [hshut, hs, hk]

/-- A poll on a changed track key runs `updateBackground` on the
optimistically advanced state. -/
lemma poll_change_key (o : PollOracle) (w : World) (t : SpotifyTrack)
    (hs : o.sample = Except.ok (some t))
    (hshut : w.st.isShuttingDown = false)
    (hk : some (getTrackId t) ≠ w.st.lastTrackId) :
    poll o w =
      ((updateBackground t o.cycle
          { w with st := { w.st with lastTrackId := some (getTrackId t) } }).1,
        (updateBackground t o.cycle
          { w with st := { w.st with lastTrackId := some (getTrackId t) } }).2.1) := by
  unfold poll
  simp [hshut, hs, hk]

/-- After a poll that saw `some t`, the recorded key is `some (getTrackId
t)` and the shutdown flag is unchanged. -/
lemma poll_records_key (o : PollOracle) (w : World) (t : SpotifyTrack)
    (hs : o.sample = Except.ok (some t))
    (hshut : w.st.isShuttingDown = false) :
    (poll o w).1.st.lastTrackId = some (getTrackId t) ∧
      (poll o w).1.st.isShuttingDown = false := by
  by_cases hk : some (getTrackId t) = w.st.lastTrackId
  · rw [poll_same_key o w t hs hk]
    exact ⟨hk.symm ▸ rfl, hshut⟩
  · rw [poll_change_key o w t hs hshut hk]
    have hp := updateBackground_preserves t o.cycle
      { w with st := { w.st with lastTrackId := some (getTrackId t) } }
    exact ⟨hp.1, hp.2.2.trans hshut⟩

/-- `writeFile` keeps the existing files. -/
lemma mem_diskWrite (q p : String) (disk : List String) (h : q ∈ disk) :
    q ∈ diskWrite disk p := by
  unfold diskWrite
  split
  · exact h
  · exact List.mem_append_left _ h

/-- In any `updateBackground` cycle, an `unlink` effect occurs only when
the desktop-setter call succeeded; it is then the last effect of the
cycle, after the `writeFile` and `setDesktop` effects on the new path,
and it targets the previously recorded output path. -/
lemma updateBackground_unlink_order (track : SpotifyTrack) (o : CycleOracle) (w : World)
    (hupd : w.st.isUpdating = false) :
    ∀ p, Effect.unlink p ∈ (updateBackground track o w).2.1 →
      o.setResult = Except.ok () ∧
        Effect.writeFile o.newPath ∈ (updateBackground track o w).2.1 ∧
        Effect.setDesktop o.newPath ∈ (updateBackground track o w).2.1 ∧
        (updateBackground track o w).2.1.getLast? = some (Effect.unlink p) ∧
        w.st.outputPath = some p ∧ p ≠ o.newPath := by
  intro p
  obtain ⟨dl, gen, wr, sr, np, wp, ur⟩ := o
  by_cases hhit : w.st.lastArtworkUrl = some track.artworkUrl ∧
    w.st.cachedArtwork.isSome = true
  all_goals cases dl
  all_goals cases gen
  all_goals cases wr
  all_goals cases sr
  all_goals cases hout : w.st.outputPath
  all_goals simp [updateBackground, hupd, hhit, hout, apply_ite, List.getLast?]
  all_goals intro hp
  all_goals try (split at hp)
  all_goals simp_all [List.getLast?]

/-- When the desktop-setter call fails, the previous output file is not
deleted (no `unlink` effect, the disk keeps every file it had) and the
recorded output path is unchanged. -/
lemma updateBackground_set_failure (track : SpotifyTrack) (o : CycleOracle) (w : World)
    (hsr : o.setResult = Except.error ()) :
    (∀ p, Effect.unlink p ∉ (updateBackground track o w).2.1) ∧
      (updateBackground track o w).1.st.outputPath = w.st.outputPath ∧
      (∀ q ∈ w.disk, q ∈ (updateBackground track o w).1.disk) := by
  obtain ⟨dl, gen, wr, sr, np, wp, ur⟩ := o
  simp only at hsr
  subst hsr
  by_cases hupd : w.st.isUpdating = true
  · simp [updateBackground, hupd]
  all_goals by_cases hhit : w.st.lastArtworkUrl = some track.artworkUrl ∧
    w.st.cachedArtwork.isSome = true
  all_goals cases dl
  all_goals cases gen
  all_goals cases wr
  all_goals cases wp
  all_goals simp [updateBackground, hupd, hhit, apply_ite]
  all_goals intro q hq
  all_goals first
    | exact hq
    | exact mem_diskWrite q np w.disk hq

/-- C1: in an update cycle triggered by a changed track key, the
previously installed output file is deleted only after the desktop-setter
call on the freshly written new path succeeded — an `unlink` effect
implies the setter succeeded, follows the `writeFile`/`setDesktop`
effects on the new path, is the last effect of the cycle and targets the
previously recorded path (first conjunct).  If the desktop-setter call
fails, nothing is unlinked, every previously existing file (in
particular the previous output file) is still on disk, the recorded
output path still names the previously installed file, and — because
`lastTrackId` was already optimistically advanced — a subsequent poll
with the identical track performs no retry whatsoever (second
conjunct). -/
theorem C1_failed_set_keeps_previous :
    ∀ (w : World) (track : SpotifyTrack) (o : PollOracle),
      w.st.isUpdating = false →
      w.st.isShuttingDown = false →
      o.sample = Except.ok (some track) →
      some (getTrackId track) ≠ w.st.lastTrackId →
      (∀ p, Effect.unlink p ∈ (poll o w).2 →
          o.cycle.setResult = Except.ok () ∧
            Effect.writeFile o.cycle.newPath ∈ (poll o w).2 ∧
            Effect.setDesktop o.cycle.newPath ∈ (poll o w).2 ∧
            (poll o w).2.getLast? = some (Effect.unlink p) ∧
            w.st.outputPath = some p ∧ p ≠ o.cycle.newPath) ∧
        (o.cycle.setResult = Except.error () →
          (∀ p, Effect.unlink p ∉ (poll o w).2) ∧
            (poll o w).1.st.outputPath = w.st.outputPath ∧
            (∀ q ∈ w.disk, q ∈ (poll o w).1.disk) ∧
            (poll o w).1.st.lastTrackId = some (getTrackId track) ∧
            (∀ o2 : PollOracle, o2.sample = Except.ok (some track) →
              poll o2 (poll o w).1 = ((poll o w).1, []))) := by
  intro w track o hupd hshut hs hnew
  have hpoll := poll_change_key o w track hs hshut hnew
  have hrec := poll_records_key o w track hs hshut
  constructor
  · intro p hp
    rw [hpoll] at hp ⊢
    exact updateBackground_unlink_order track o.cycle
      { w with st := { w.st with lastTrackId := some (getTrackId track) } } hupd p hp
  · intro hsr
    have hfail := updateBackground_set_failure track o.cycle
      { w with st := { w.st with lastTrackId := some (getTrackId track) } } hsr
    refine ⟨?_, ?_, ?_, hrec.1, ?_⟩
    · intro p
      rw [hpoll]
      exact hfail.1 p
    · rw [hpoll]
      exact hfail.2.1
    · intro q hq
      rw [hpoll]
      exact hfail.2.2 q hq
    · intro o2 hs2
      exact poll_same_key o2 (poll o w).1 track hs2 hrec.1.symm

/-- Witness for C1: a failing desktop-setter call on a world that shows
an installed file `"prev"`; nothing is unlinked, `"prev"` stays recorded
and on disk, the key is advanced, and the identical sample polls as a
no-op afterwards. -/
theorem C1_failed_set_keeps_previous_witness :
    (∀ p, Effect.unlink p ∉
        (poll
          { sample := Except.ok (some ⟨"A", "T", "U"⟩),
            cycle := ⟨Except.ok 7, Except.ok 8, Except.ok (), Except.error (), "fnew", false, Except.ok ()⟩ }
          { st := { initialState with
                    lastTrackId := some "old", outputPath := some "prev",
                    originalBackground := some "orig" },
            disk := ["prev"] }).2) ∧
      (poll
          { sample := Except.ok (some ⟨"A", "T", "U"⟩),
            cycle := ⟨Except.ok 7, Except.ok 8, Except.ok (), Except.error (), "fnew", false, Except.ok ()⟩ }
          { st := { initialState with
                    lastTrackId := some "old", outputPath := some "prev",
                    originalBackground := some "orig" },
            disk := ["prev"] }).1.st.outputPath = some "prev" := by
  have h := (C1_failed_set_keeps_previous
      { st := { initialState with
                lastTrackId := some "old", outputPath := some "prev",
                originalBackground := some "orig" },
        disk := ["prev"] }
      ⟨"A", "T", "U"⟩
      { sample := Except.ok (some ⟨"A", "T", "U"⟩),
        cycle := ⟨Except.ok 7, Except.ok 8, Except.ok (), Except.error (), "fnew", false, Except.ok ()⟩ }
      (by decide) (by decide) (by decide) (by decide)).2 (by decide)
  exact ⟨h.1, h.2.1.trans (by decide)⟩

/-- C5: a poll whose sample's track key equals `lastTrackId` performs no
external effects and leaves the reconciler world unchanged (first
conjunct); consequently polling twice with an unchanged metadata sample
changes nothing after the first poll (second conjunct). -/
theorem C5_idempotent_poll :
    (∀ (o : PollOracle) (w : World) (t : SpotifyTrack),
        o.sample = Except.ok (some t) →
        some (getTrackId t) = w.st.lastTrackId →
        poll o w = (w, [])) ∧
      (∀ (o1 o2 : PollOracle) (w : World) (t : SpotifyTrack),
        o1.sample = Except.ok (some t) →
        o2.sample = Except.ok (some t) →
        poll o2 (poll o1 w).1 = ((poll o1 w).1, [])) := by
  refine ⟨poll_same_key, ?_⟩
  intro o1 o2 w t hs1 hs2
  by_cases hshut : w.st.isShuttingDown
  · have h1 : poll o1 w = (w, []) := by unfold poll; simp [hshut]
    rw [h1]
    unfold poll
    simp [hshut]
  · simp only [Bool.not_eq_true] at hshut
    have hrec := poll_records_key o1 w t hs1 hshut
    exact poll_same_key o2 (poll o1 w).1 t hs2 hrec.1.symm

/-- Witness for C5 at a concrete world and sample. -/
theorem C5_idempotent_poll_witness :
    poll
        { sample := Except.ok (some ⟨"A", "T", "U"⟩),
          cycle := ⟨Except.ok 7, Except.ok 8, Except.ok (), Except.ok (), "f1", false, Except.ok ()⟩ }
        { st := { initialState with lastTrackId := some "A::T::U" }, disk := [] }
      = ({ st := { initialState with lastTrackId := some "A::T::U" }, disk := [] }, []) :=
  C5_idempotent_poll.1
    { sample := Except.ok (some ⟨"A", "T", "U"⟩),
      cycle := ⟨Except.ok 7, Except.ok 8, Except.ok (), Except.ok (), "f1", false, Except.ok ()⟩ }
    { st := { initialState with lastTrackId := some "A::T::U" }, disk := [] }
    ⟨"A", "T", "U"⟩ (by decide) (by decide)

/-- C8: every invocation of `updateBackground` that enters the cycle body
(the flag is clear at entry, as on every invocation that can download,
compose, write or set) leaves the `isUpdating` mutual-exclusion flag
false again on completion, whatever the outcomes of the artwork download,
the compositor, the file write and the desktop-setter call — the `finally`
block runs on the error paths too, so a failed cycle never leaves the
flag stuck. -/
theorem C8_updating_flag_reset :
    ∀ (track : SpotifyTrack) (o : CycleOracle) (w : World),
      w.st.isUpdating = false →
      (updateBackground track o w).1.st.isUpdating = false :=
  fun track o w h => updateBackground_resets_flag track o w h

/-- Witness for C8: a cycle whose desktop-setter call fails still resets
the flag. -/
theorem C8_updating_flag_reset_witness :
    (updateBackground ⟨"A", "T", "U"⟩
        ⟨Except.ok 7, Except.ok 8, Except.ok (), Except.error (), "f1", false, Except.ok ()⟩
        { st := initialState, disk := [] }).1.st.isUpdating = false :=
  C8_updating_flag_reset ⟨"A", "T", "U"⟩
    ⟨Except.ok 7, Except.ok 8, Except.ok (), Except.error (), "f1", false, Except.ok ()⟩
    { st := initialState, disk := [] } (by decide)

/-- C9: the track key is the plain `"::"`-joined concatenation of artist,
title and artwork URL (first conjunct), and this mapping is not
injective: the two distinct metadata values `("a::b", "c", "d")` and
`("a", "b::c", "d")` share the key `"a::b::c::d"`, and a change between
them while the first is showing is invisible to the loop — the poll with
the second track is a complete no-op. -/
theorem C9_track_key_collision :
    (∀ t : SpotifyTrack, getTrackId t = t.artist ++ "::" ++ t.track ++ "::" ++ t.artworkUrl) ∧
      (SpotifyTrack.mk "a::b" "c" "d" ≠ SpotifyTrack.mk "a" "b::c" "d") ∧
      getTrackId (SpotifyTrack.mk "a::b" "c" "d") = getTrackId (SpotifyTrack.mk "a" "b::c" "d") ∧
      poll
          { sample := Except.ok (some (SpotifyTrack.mk "a" "b::c" "d")),
            cycle := ⟨Except.ok 7, Except.ok 8, Except.ok (), Except.ok (), "f1", false, Except.ok ()⟩ }
          { st := { initialState with
                    lastTrackId := some (getTrackId (SpotifyTrack.mk "a::b" "c" "d")) },
            disk := [] }
        = ({ st := { initialState with
                     lastTrackId := some (getTrackId (SpotifyTrack.mk "a::b" "c" "d")) },
             disk := [] }, []) := by
  refine ⟨fun t => rfl, by decide, by decide, ?_⟩
  decide

/-- C10: the sampler maps both the `"null"` result (Spotify not running)
and the `"paused"` result (running but not playing) to `null`, so the
loop receives the identical sample in both cases and its observable
behavior coincides; on such a sample it restores the original wallpaper
and clears the key exactly when a track was previously showing, and is a
complete no-op otherwise. -/
theorem C10_not_running_eq_not_playing :
    (parseSpotifyResult "null" = none ∧ parseSpotifyResult "paused" = none) ∧
      (∀ (w : World) (c : CycleOracle),
        poll { sample := Except.ok (parseSpotifyResult "null"), cycle := c } w
          = poll { sample := Except.ok (parseSpotifyResult "paused"), cycle := c } w) ∧
      (∀ (w : World) (c : CycleOracle) (bg : String),
        w.st.isShuttingDown = false →
        w.st.originalBackground = some bg →
        (w.st.lastTrackId ≠ none →
          poll { sample := Except.ok none, cycle := c } w
            = ({ w with st := { w.st with lastTrackId := none } },
               [Effect.setDesktop bg])) ∧
        (w.st.lastTrackId = none →
          poll { sample := Except.ok none, cycle := c } w = (w, []))) := by
  refine ⟨⟨rfl, rfl⟩, fun w c => rfl, ?_⟩
  intro w c bg hshut horig
  constructor
  · intro hlast
    unfold poll
    simp [hshut, hlast, horig]
  · intro hlast
    unfold poll
    simp [hshut, hlast]

/-- Witness for C10: a world showing a track restores the original
background on a `null` sample. -/
theorem C10_not_running_eq_not_playing_witness :
    poll
        { sample := Except.ok none,
          cycle := ⟨Except.ok 7, Except.ok 8, Except.ok (), Except.ok (), "f1", false, Except.ok ()⟩ }
        { st := { initialState with
                  lastTrackId := some "A::T::U", originalBackground := some "orig" },
          disk := [] }
      = ({ st := { initialState with
                   lastTrackId := none, originalBackground := some "orig" },
           disk := [] }, [Effect.setDesktop "orig"]) := by
  have h := (C10_not_running_eq_not_playing.2.2
      { st := { initialState with
                lastTrackId := some "A::T::U", originalBackground := some "orig" },
        disk := [] }
      ⟨Except.ok 7, Except.ok 8, Except.ok (), Except.ok (), "f1", false, Except.ok ()⟩
      "orig" (by decide) (by decide)).1 (by decide)
  exact h.trans (by decide)

/-! ## Interleaved-model lemmas (claims C6, C7) -/

/-- `runSys` unfolds one event at a time. -/
lemma runSys_cons (e : Ev) (evs : List Ev) (s : Sys) :
    runSys (e :: evs) s = runSys evs (evStep s e).1 := rfl

/-- The mutual-exclusion flag is set exactly while a cycle is in flight. -/
def flagInv (s : Sys) : Prop := s.st.isUpdating = s.inFlight.isSome

/-- Every event preserves `flagInv`. -/
lemma flagInv_step (s : Sys) (e : Ev) (h : flagInv s) : flagInv (evStep s e).1 := by
  unfold flagInv at h ⊢
  cases e with
  | tick sample o =>
    unfold evStep tickSys
    repeat' split
    all_goals try simp_all
    all_goals repeat' split
    all_goals simp_all
  | step =>
    unfold evStep stepSys
    repeat' split
    all_goals simp_all
  | cleanup =>
    unfold evStep cleanupSys
    repeat' split
    all_goals try simp_all
    all_goals repeat' split
    all_goals simp_all

/-- `flagInv` holds in every reachable state. -/
lemma flagInv_run (evs : List Ev) : ∀ s, flagInv s → flagInv (runSys evs s) := by
  induction evs with
  | nil => intro s h; exact h
  | cons e rest ih => intro s h; rw [runSys_cons]; exact ih _ (flagInv_step s e h)

/-- A tick that arrives while the flag is set never touches the in-flight
cycle, never emits a compositor call, never touches the disk, and changes
at most `lastTrackId` (the overlapping cycle is dropped, not queued). -/
lemma tickSys_while_updating (sample : Except Unit (Option SpotifyTrack))
    (o : CycleOracle) (s : Sys) (h : s.st.isUpdating = true) :
    (tickSys sample o s).1.inFlight = s.inFlight ∧
      (tickSys sample o s).1.st.isUpdating = true ∧
      (∀ u, Effect.generateImage u ∉ (tickSys sample o s).2) ∧
      (tickSys sample o s).1.disk = s.disk ∧
      (tickSys sample o s).1.st
        = { s.st with lastTrackId := (tickSys sample o s).1.st.lastTrackId } := by
  unfold tickSys
  repeat' split
  all_goals try simp_all [WatcherState.ext_iff]
  all_goals repeat' split
  all_goals simp_all [WatcherState.ext_iff]

/-- C6: update cycles never overlap.  In every reachable state with the
`updating` flag set a cycle is indeed in flight, and a tick arriving in
such a state starts no second cycle: the in-flight cycle is untouched,
the compositor is not invoked, the disk is untouched and at most
`lastTrackId` changes — the overlapping tick is dropped, with nothing
queued. -/
theorem C6_at_most_one_in_flight :
    ∀ (bg : String) (evs : List Ev) (sample : Except Unit (Option SpotifyTrack))
      (o : CycleOracle),
      (runSys evs (startSys bg)).st.isUpdating = true →
      (runSys evs (startSys bg)).inFlight.isSome = true ∧
        (tickSys sample o (runSys evs (startSys bg))).1.inFlight
          = (runSys evs (startSys bg)).inFlight ∧
        (tickSys sample o (runSys evs (startSys bg))).1.st.isUpdating = true ∧
        (∀ u, Effect.generateImage u ∉ (tickSys sample o (runSys evs (startSys bg))).2) ∧
        (tickSys sample o (runSys evs (startSys bg))).1.disk
          = (runSys evs (startSys bg)).disk ∧
        (tickSys sample o (runSys evs (startSys bg))).1.st
          = { (runSys evs (startSys bg)).st with
              lastTrackId :=
                (tickSys sample o (runSys evs (startSys bg))).1.st.lastTrackId } := by
  intro bg evs sample o h
  have hinv : flagInv (runSys evs (startSys bg)) := flagInv_run evs (startSys bg) rfl
  unfold flagInv at hinv
  refine ⟨hinv ▸ h, ?_⟩
  exact tickSys_while_updating sample o (runSys evs (startSys bg)) h

/-- Witness for C6: after one tick that started a cycle, the flag is set,
and a second tick with the same sample leaves the in-flight cycle
untouched. -/
theorem C6_at_most_one_in_flight_witness :
    (runSys [Ev.tick (Except.ok (some ⟨"A", "T", "U"⟩))
        ⟨Except.ok 7, Except.ok 8, Except.ok (), Except.ok (), "f1", false, Except.ok ()⟩]
      (startSys "orig")).st.isUpdating = true ∧
      (runSys [Ev.tick (Except.ok (some ⟨"A", "T", "U"⟩))
          ⟨Except.ok 7, Except.ok 8, Except.ok (), Except.ok (), "f1", false, Except.ok ()⟩]
        (startSys "orig")).inFlight.isSome = true ∧
      (tickSys (Except.ok (some ⟨"A", "T", "U"⟩))
          ⟨Except.ok 7, Except.ok 8, Except.ok (), Except.ok (), "f1", false, Except.ok ()⟩
          (runSys [Ev.tick (Except.ok (some ⟨"A", "T", "U"⟩))
              ⟨Except.ok 7, Except.ok 8, Except.ok (), Except.ok (), "f1", false, Except.ok ()⟩]
            (startSys "orig"))).1.inFlight
        = (runSys [Ev.tick (Except.ok (some ⟨"A", "T", "U"⟩))
              ⟨Except.ok 7, Except.ok 8, Except.ok (), Except.ok (), "f1", false, Except.ok ()⟩]
            (startSys "orig")).inFlight := by
  have h := C6_at_most_one_in_flight "orig"
    [Ev.tick (Except.ok (some ⟨"A", "T", "U"⟩))
      ⟨Except.ok 7, Except.ok 8, Except.ok (), Except.ok (), "f1", false, Except.ok ()⟩]
    (Except.ok (some ⟨"A", "T", "U"⟩))
    ⟨Except.ok 7, Except.ok 8, Except.ok (), Except.ok (), "f1", false, Except.ok ()⟩
    (by decide)
  exact ⟨by decide, h.1, h.2.1⟩

/-- The event's disk-touching external calls behave cleanly: its
desktop-setter call succeeds, its post-setter delete of the previous
file succeeds, and a failed write leaves no partial file.  A `step`
performs the calls of the cycle its tick created, so all conditions sit
on the tick; a shutdown `cleanup` carries no condition (its delete may
fail without affecting the bound, since it targets the one recorded
file). -/
def diskCallsOk : Ev → Prop
  | Ev.tick _ o => o.setResult = Except.ok () ∧ o.unlinkResult = Except.ok () ∧
      o.writePartial = false
  | Ev.step => True
  | Ev.cleanup _ => True

/-- `diskCallsOk` is decidable (used to discharge it on concrete traces). -/
instance : ∀ e : Ev, Decidable (diskCallsOk e)
  | Ev.tick _ o => inferInstanceAs (Decidable (o.setResult = Except.ok () ∧
      o.unlinkResult = Except.ok () ∧ o.writePartial = false))
  | Ev.step => inferInstanceAs (Decidable True)
  | Ev.cleanup _ => inferInstanceAs (Decidable True)

/-- Disk invariant for executions whose disk-touching calls behave
cleanly: the files on disk are duplicate-free; every in-flight cycle
carries a succeeding setter, a succeeding post-setter delete and no
partial write; and every file on disk is the recorded output file,
except that between the `writeFile` and the install step of the
in-flight cycle the freshly written path may additionally be present. -/
def diskInv (s : Sys) : Prop :=
  s.disk.Nodup ∧
    (∀ c, s.inFlight = some c → c.oracle.setResult = Except.ok () ∧
      c.oracle.unlinkResult = Except.ok () ∧ c.oracle.writePartial = false) ∧
    (∀ p ∈ s.disk, s.st.outputPath = some p ∨
      ∃ c, s.inFlight = some c ∧ (c.pc = CyclePC.setBg ∨ c.pc = CyclePC.install) ∧
        p = c.oracle.newPath)

/-- The start state satisfies the invariant. -/
lemma diskInv_start (bg : String) : diskInv (startSys bg) := by
  refine ⟨List.nodup_nil, ?_, ?_⟩
  · intro c hc
    cases hc
  · intro p hp
    simp [startSys] at hp

/-- A duplicate-free list whose members all equal one recorded value has
at most one element. -/
lemma length_le_one_of_all_eq (l : List String) (hnd : l.Nodup) (x : Option String)
    (h : ∀ p ∈ l, x = some p) : l.length ≤ 1 := by
  match l with
  | [] => simp
  | [a] => simp
  | a :: b :: t =>
    exfalso
    have ha : x = some a := h a (by simp)
    have hb : x = some b := h b (by simp)
    have : a = b := by
      have := ha.symm.trans hb
      simpa using this
    simp [this] at hnd

/-- A duplicate-free list whose members each equal one of two values has
at most two elements. -/
lemma length_le_two_of_all_mem_pair (l : List String) (hnd : l.Nodup)
    (x : Option String) (y : String) (h : ∀ p ∈ l, x = some p ∨ p = y) :
    l.length ≤ 2 := by
  match l with
  | [] => simp
  | [a] => simp
  | [a, b] => simp
  | a :: b :: c :: t =>
    exfalso
    have ha := h a (by simp)
    have hb := h b (by simp)
    have hc := h c (by simp)
    have hab : a ≠ b := by intro he; simp [he] at hnd
    have hac : a ≠ c := by intro he; simp [he] at hnd
    have hbc : b ≠ c := by intro he; simp [he] at hnd
    rcases ha with ha | ha <;> rcases hb with hb | hb <;> rcases hc with hc | hc <;>
      first
        | exact hab (Option.some.inj (ha.symm.trans hb))
        | exact hac (Option.some.inj (ha.symm.trans hc))
        | exact hbc (Option.some.inj (hb.symm.trans hc))
        | exact hab (ha.trans hb.symm)
        | exact hac (ha.trans hc.symm)
        | exact hbc (hb.trans hc.symm)

/-- A file present after `writeFile` was present before or is the
written path. -/
lemma mem_diskWrite_elim (q p : String) (disk : List String)
    (h : q ∈ diskWrite disk p) : q ∈ disk ∨ q = p := by
  unfold diskWrite at h
  split at h
  · exact Or.inl h
  · rcases List.mem_append.mp h with h | h
    · exact Or.inl h
    · simp at h
      exact Or.inr h

/-- `writeFile` keeps the disk duplicate-free. -/
lemma diskWrite_nodup (p : String) (disk : List String) (h : disk.Nodup) :
    (diskWrite disk p).Nodup := by
  unfold diskWrite
  split
  · exact h
  · next hp => simpa [List.nodup_append, hp] using h

/-- What a tick can do to the system: the disk and the recorded output
path are untouched, and the in-flight cycle is either untouched or, when
the flag was clear, freshly created at its first suspension point with
the tick's oracle. -/
lemma tickSys_shape (sample : Except Unit (Option SpotifyTrack)) (o : CycleOracle)
    (s : Sys) :
    (tickSys sample o s).1.disk = s.disk ∧
      (tickSys sample o s).1.st.outputPath = s.st.outputPath ∧
      ((tickSys sample o s).1.inFlight = s.inFlight ∨
        (s.st.isUpdating = false ∧
          ∃ track, (tickSys sample o s).1.inFlight = some ⟨track, o, CyclePC.fetch⟩)) := by
  unfold tickSys
  dsimp only
  repeat' split
  all_goals first
    | exact ⟨rfl, rfl, Or.inl rfl⟩
    | (refine ⟨rfl, rfl, Or.inr ⟨?_, _, rfl⟩⟩; simp_all)

/-- Every event with a succeeding setter preserves the disk invariant
(given the flag invariant of the pre-state). -/
lemma diskInv_step (s : Sys) (e : Ev) (hok : diskCallsOk e) (hf : flagInv s)
    (h : diskInv s) : diskInv (evStep s e).1 := by
  obtain ⟨hnd, hsr, hmem⟩ := h
  cases e with
  | tick sample o =>
    unfold diskCallsOk at hok
    show diskInv (tickSys sample o s).1
    obtain ⟨hdisk, hout, hifl⟩ := tickSys_shape sample o s
    refine ⟨hdisk ▸ hnd, ?_, ?_⟩
    · rcases hifl with hifl | ⟨hupd, track, hifl⟩
      · intro c hc
        exact hsr c (hifl.symm.trans hc)
      · intro c hc
        rw [hifl] at hc
        cases hc
        exact hok
    · intro p hp
      rw [hdisk] at hp
      rw [hout]
      rcases hmem p hp with hp1 | ⟨c, hc, hpc, hnp⟩
      · exact Or.inl hp1
      · rcases hifl with hifl | ⟨hupd, track, hifl⟩
        · exact Or.inr ⟨c, hifl.trans hc, hpc, hnp⟩
        · exfalso
          unfold flagInv at hf
          rw [hc] at hf
          simp [hupd] at hf
  | step =>
    show diskInv (stepSys s).1
    unfold stepSys
    cases hif : s.inFlight with
    | none => exact ⟨hnd, hsr, hmem⟩
    | some c =>
      dsimp only
      have hsrc : c.oracle.setResult = Except.ok () ∧
          c.oracle.unlinkResult = Except.ok () ∧ c.oracle.writePartial = false :=
        hsr c hif
      cases hpc : c.pc with
      | fetch =>
        dsimp only
        by_cases hhit : s.st.lastArtworkUrl = some c.track.artworkUrl ∧
          s.st.cachedArtwork.isSome = true
        · rw [if_pos hhit]
          refine ⟨hnd, ?_, ?_⟩
          · intro c2 hc2
            cases hc2
            exact hsrc
          · intro p hp
            rcases hmem p hp with h1 | ⟨c0, hc0, hpc0, _⟩
            · exact Or.inl h1
            · rw [hif] at hc0
              cases hc0
              rw [hpc] at hpc0
              rcases hpc0 with h0 | h0 <;> cases h0
        · rw [if_neg hhit]
          cases hdl : c.oracle.downloadResult with
          | error e =>
            refine ⟨hnd, ?_, ?_⟩
            · intro c2 hc2
              cases hc2
            intro p hp
            rcases hmem p hp with h1 | ⟨c0, hc0, hpc0, _⟩
            · exact Or.inl h1
            · rw [hif] at hc0
              cases hc0
              rw [hpc] at hpc0
              rcases hpc0 with h0 | h0 <;> cases h0
          | ok bytes =>
            refine ⟨hnd, ?_, ?_⟩
            · intro c2 hc2
              cases hc2
              exact hsrc
            · intro p hp
              rcases hmem p hp with h1 | ⟨c0, hc0, hpc0, _⟩
              · exact Or.inl h1
              · rw [hif] at hc0
                cases hc0
                rw [hpc] at hpc0
                rcases hpc0 with h0 | h0 <;> cases h0
      | generate =>
        dsimp only
        cases hgen : c.oracle.generateResult with
        | error e =>
          refine ⟨hnd, ?_, ?_⟩
          · intro c2 hc2
            cases hc2
          intro p hp
          rcases hmem p hp with h1 | ⟨c0, hc0, hpc0, _⟩
          · exact Or.inl h1
          · rw [hif] at hc0
            cases hc0
            rw [hpc] at hpc0
            rcases hpc0 with h0 | h0 <;> cases h0
        | ok img =>
          refine ⟨hnd, ?_, ?_⟩
          · intro c2 hc2
            cases hc2
            exact hsrc
          · intro p hp
            rcases hmem p hp with h1 | ⟨c0, hc0, hpc0, _⟩
            · exact Or.inl h1
            · rw [hif] at hc0
              cases hc0
              rw [hpc] at hpc0
              rcases hpc0 with h0 | h0 <;> cases h0
      | write =>
        dsimp only
        cases hwr : c.oracle.writeResult with
        | error e =>
          rw [hsrc.2.2]
          refine ⟨hnd, ?_, ?_⟩
          · intro c2 hc2
            cases hc2
          intro p hp
          rcases hmem p hp with h1 | ⟨c0, hc0, hpc0, _⟩
          · exact Or.inl h1
          · rw [hif] at hc0
            cases hc0
            rw [hpc] at hpc0
            rcases hpc0 with h0 | h0 <;> cases h0
        | ok u =>
          refine ⟨diskWrite_nodup _ _ hnd, ?_, ?_⟩
          · intro c2 hc2
            cases hc2
            exact hsrc
          · intro p hp
            rcases mem_diskWrite_elim p c.oracle.newPath s.disk hp with hp1 | hp1
            · rcases hmem p hp1 with h1 | ⟨c0, hc0, hpc0, _⟩
              · exact Or.inl h1
              · rw [hif] at hc0
                cases hc0
                rw [hpc] at hpc0
                rcases hpc0 with h0 | h0 <;> cases h0
            · exact Or.inr ⟨{ c with pc := CyclePC.setBg }, rfl, Or.inl rfl, hp1⟩
      | setBg =>
        dsimp only
        cases hset : c.oracle.setResult with
        | error e => rw [hsrc.1] at hset; cases hset
        | ok u =>
          refine ⟨hnd, ?_, ?_⟩
          · intro c2 hc2
            cases hc2
            exact hsrc
          · intro p hp
            rcases hmem p hp with h1 | ⟨c0, hc0, _, hnp⟩
            · exact Or.inl h1
            · rw [hif] at hc0
              cases hc0
              exact Or.inr ⟨{ c with pc := CyclePC.install }, rfl, Or.inr rfl, hnp⟩
      | install =>
        dsimp only
        cases hout : s.st.outputPath with
        | some old =>
          dsimp only
          by_cases hne : ¬old = c.oracle.newPath
          · rw [if_pos hne, hsrc.2.1]
            refine ⟨hnd.erase old, ?_, ?_⟩
            · intro c2 hc2
              cases hc2
            intro p hp
            have hp2 := (hnd.mem_erase_iff).mp hp
            rcases hmem p hp2.2 with h1 | ⟨c0, hc0, _, hnp⟩
            · exfalso
              rw [hout] at h1
              exact hp2.1 (Option.some.inj h1).symm
            · rw [hif] at hc0
              cases hc0
              exact Or.inl (by rw [hnp])
          · rw [if_neg hne]
            simp only [not_not] at hne
            refine ⟨hnd, ?_, ?_⟩
            · intro c2 hc2
              cases hc2
            intro p hp
            rcases hmem p hp with h1 | ⟨c0, hc0, _, hnp⟩
            · rw [hout] at h1
              exact Or.inl (by rw [← hne]; exact h1)
            · rw [hif] at hc0
              cases hc0
              exact Or.inl (by rw [hnp])
        | none =>
          dsimp only
          refine ⟨hnd, ?_, ?_⟩
          · intro c2 hc2
            cases hc2
          intro p hp
          rcases hmem p hp with h1 | ⟨c0, hc0, _, hnp⟩
          · rw [hout] at h1
            cases h1
          · rw [hif] at hc0
            cases hc0
            exact Or.inl (by rw [hnp])
  | cleanup ur =>
    show diskInv (cleanupSys ur s).1
    unfold cleanupSys
    dsimp only
    cases hout : s.st.outputPath with
    | some p0 =>
      dsimp only
      cases ur with
      | ok u =>
        refine ⟨hnd.erase p0, hsr, ?_⟩
        intro p hp
        have hm := hmem p (List.mem_of_mem_erase hp)
        rw [hout] at hm
        exact hm
      | error e =>
        refine ⟨hnd, hsr, ?_⟩
        intro p hp
        have hm := hmem p hp
        rw [hout] at hm
        exact hm
    | none =>
      dsimp only
      refine ⟨hnd, hsr, ?_⟩
      intro p hp
      have hm := hmem p hp
      rw [hout] at hm
      exact hm

/-- The disk invariant holds along every run whose disk-touching calls
behave cleanly. -/
lemma diskInv_run (evs : List Ev) :
    ∀ s, (∀ e ∈ evs, diskCallsOk e) → flagInv s → diskInv s →
      diskInv (runSys evs s) := by
  induction evs with
  | nil => intro s _ _ h; exact h
  | cons e rest ih =>
    intro s hok hf h
    rw [runSys_cons]
    exact ih _ (fun e2 he2 => hok e2 (List.mem_cons_of_mem _ he2))
      (flagInv_step s e hf) (diskInv_step s e (hok e (List.mem_cons_self _ _)) hf h)

/-- C7: the claim is false as stated, in two independent ways.  First
execution: the first update cycle's desktop-setter call fails, so its
freshly written file `"fileA"` is never recorded in `outputPath` and
never deleted; after a second, fully successful cycle two generated
image files exist on disk with no cycle in flight.  Second execution:
every desktop-setter call succeeds, but the second cycle's post-setter
`unlink` of the previous file fails — a failure the source swallows with
`.catch(() => {})` — so the previous file `"fileA"` stays on disk next
to `"fileB"`, again two generated files at a quiescent point. -/
theorem C7_counterexample :
    (runSys
          [Ev.tick (Except.ok (some ⟨"A", "T", "U"⟩))
              ⟨Except.ok 7, Except.ok 8, Except.ok (), Except.error (), "fileA", false, Except.ok ()⟩,
            Ev.step, Ev.step, Ev.step, Ev.step,
            Ev.tick (Except.ok (some ⟨"B", "S", "V"⟩))
              ⟨Except.ok 7, Except.ok 8, Except.ok (), Except.ok (), "fileB", false, Except.ok ()⟩,
            Ev.step, Ev.step, Ev.step, Ev.step, Ev.step]
          (startSys "orig")).disk = ["fileA", "fileB"] ∧
      (runSys
          [Ev.tick (Except.ok (some ⟨"A", "T", "U"⟩))
              ⟨Except.ok 7, Except.ok 8, Except.ok (), Except.error (), "fileA", false, Except.ok ()⟩,
            Ev.step, Ev.step, Ev.step, Ev.step,
            Ev.tick (Except.ok (some ⟨"B", "S", "V"⟩))
              ⟨Except.ok 7, Except.ok 8, Except.ok (), Except.ok (), "fileB", false, Except.ok ()⟩,
            Ev.step, Ev.step, Ev.step, Ev.step, Ev.step]
          (startSys "orig")).inFlight = none ∧
      (runSys
          [Ev.tick (Except.ok (some ⟨"A", "T", "U"⟩))
              ⟨Except.ok 7, Except.ok 8, Except.ok (), Except.ok (), "fileA", false, Except.ok ()⟩,
            Ev.step, Ev.step, Ev.step, Ev.step, Ev.step,
            Ev.tick (Except.ok (some ⟨"B", "S", "V"⟩))
              ⟨Except.ok 7, Except.ok 8, Except.ok (), Except.ok (), "fileB", false, Except.error ()⟩,
            Ev.step, Ev.step, Ev.step, Ev.step, Ev.step]
          (startSys "orig")).disk = ["fileA", "fileB"] ∧
      (runSys
          [Ev.tick (Except.ok (some ⟨"A", "T", "U"⟩))
              ⟨Except.ok 7, Except.ok 8, Except.ok (), Except.ok (), "fileA", false, Except.ok ()⟩,
            Ev.step, Ev.step, Ev.step, Ev.step, Ev.step,
            Ev.tick (Except.ok (some ⟨"B", "S", "V"⟩))
              ⟨Except.ok 7, Except.ok 8, Except.ok (), Except.ok (), "fileB", false, Except.error ()⟩,
            Ev.step, Ev.step, Ev.step, Ev.step, Ev.step]
          (startSys "orig")).inFlight = none := by
  refine ⟨?_, ?_, ?_, ?_⟩ <;> decide

/-- C7 (amended): in every execution in which every update cycle's
desktop-setter call succeeds, every post-setter delete of the previous
output file succeeds, and no failed file write leaves a partial file, at
most one generated output file exists on disk at every point at which no
update cycle is in flight, and never more than two files at any point
(the freshly written file coexists with the previous one between the
write and the post-setter delete of a cycle).  Outside these provisos
the source leaks files: a failing setter orphans the freshly written
file, and the post-setter delete's failure is swallowed by
`.catch(() => {})`, leaving the previous file behind. -/
theorem C7_single_output_file :
    ∀ (bg : String) (evs : List Ev),
      (∀ e ∈ evs, diskCallsOk e) →
      ((runSys evs (startSys bg)).inFlight = none →
          (runSys evs (startSys bg)).disk.length ≤ 1) ∧
        (runSys evs (startSys bg)).disk.length ≤ 2 := by
  intro bg evs hok
  obtain ⟨hnd, hsr, hmem⟩ := diskInv_run evs (startSys bg) hok rfl (diskInv_start bg)
  constructor
  · intro hq
    apply length_le_one_of_all_eq _ hnd ((runSys evs (startSys bg)).st.outputPath)
    intro p hp
    rcases hmem p hp with h1 | ⟨c, hc, _, _⟩
    · exact h1
    · rw [hq] at hc
      cases hc
  · cases hifq : (runSys evs (startSys bg)).inFlight with
    | none =>
      have h1 := length_le_one_of_all_eq _ hnd ((runSys evs (startSys bg)).st.outputPath)
        (fun p hp => by
          rcases hmem p hp with h1 | ⟨c, hc, _, _⟩
          · exact h1
          · rw [hifq] at hc
            cases hc)
      omega
    | some c =>
      apply length_le_two_of_all_mem_pair _ hnd ((runSys evs (startSys bg)).st.outputPath)
        c.oracle.newPath
      intro p hp
      rcases hmem p hp with h1 | ⟨c0, hc0, _, hnp⟩
      · exact Or.inl h1
      · rw [hifq] at hc0
        cases hc0
        exact Or.inr hnp

/-- Witness for the amended C7: an execution with two complete cycles
whose setter calls and post-setter deletes all succeed ends with at most
one file on disk. -/
theorem C7_single_output_file_witness :
    (runSys
        [Ev.tick (Except.ok (some ⟨"A", "T", "U"⟩))
            ⟨Except.ok 7, Except.ok 8, Except.ok (), Except.ok (), "fileA", false, Except.ok ()⟩,
          Ev.step, Ev.step, Ev.step, Ev.step, Ev.step,
          Ev.tick (Except.ok (some ⟨"B", "S", "V"⟩))
            ⟨Except.ok 7, Except.ok 8, Except.ok (), Except.ok (), "fileB", false, Except.ok ()⟩,
          Ev.step, Ev.step, Ev.step, Ev.step, Ev.step]
        (startSys "orig")).disk.length ≤ 1 :=
  (C7_single_output_file "orig"
      [Ev.tick (Except.ok (some ⟨"A", "T", "U"⟩))
          ⟨Except.ok 7, Except.ok 8, Except.ok (), Except.ok (), "fileA", false, Except.ok ()⟩,
        Ev.step, Ev.step, Ev.step, Ev.step, Ev.step,
        Ev.tick (Except.ok (some ⟨"B", "S", "V"⟩))
          ⟨Except.ok 7, Except.ok 8, Except.ok (), Except.ok (), "fileB", false, Except.ok ()⟩,
        Ev.step, Ev.step, Ev.step, Ev.step, Ev.step]
      (by decide)).1 (by decide)

end SpotifyBackground
